import Mathlib

/-
Verification of the cloned_ptr / polymorphic_value library (martty/polymorphic_value).

The C++ sources are embedded shallowly:
  * Concrete objects live in an explicit heap `Heap` mapping addresses (Nat) to
    objects `Obj`.  An `Obj` records the dynamic (most-derived) type of the
    object as a numeric tag together with its value state.  The live-object
    count of the tests (`DerivedType::object_count`) is the number of entries
    in the heap.
  * Raw pointers are `Option Nat` (`none` is the null pointer).  The numeric
    value of a pointer, as used by the raw-address comparisons, is given by
    `ptrVal` (0 for null, a + 1 for the object in slot a).
  * Class hierarchies are abstracted by a relation `isA : Nat → Nat → Bool`
    ("the dynamic type tagged d can be viewed as the type tagged t"), passed
    explicitly to the operations that perform `dynamic_cast`.
  * The control-block hierarchy of cloned_ptr.h becomes the inductive `CB`;
    `cloned_ptr<T>` becomes `Handle` (with fields `ptr_` and `cb_` mirroring
    the members of the class).  Since the embedding is untyped, the template
    parameters survive only as the numeric tags stored in the blocks.
  * Operations that allocate or destroy objects take and return the heap.
    For exception-safety claims a budget-instrumented variant (`cloneF`,
    `copyCtorF`) counts allocations (each `new`, both of objects and of
    control blocks, consumes one unit) and fails when the budget runs out,
    returning the heap after C++ unwinding so that leaks are observable.
-/

namespace PolyVal

/-- A concrete C++ object: its dynamic (most-derived) type tag and its value
state (the `value_` payload of the test types). -/
structure Obj where
  dynType : Nat
  state : Int
deriving DecidableEq, Repr

/-- The heap: a bump allocator counter and the association list of live
objects.  `mem` holds one entry per live object. -/
structure Heap where
  next : Nat
  mem : List (Nat × Obj)
deriving DecidableEq, Repr

/-- The empty heap (the baseline of the tests, `object_count == 0`). -/
def Heap.empty : Heap := ⟨0, []⟩

/-- Number of live objects (`DerivedType::object_count` in the tests). -/
def Heap.count (H : Heap) : Nat := H.mem.length

/-- `operator new`: place an object in a fresh slot, return the new heap and
the address of the slot. -/
def Heap.alloc (H : Heap) (o : Obj) : Heap × Nat :=
  (⟨H.next + 1, (H.next, o) :: H.mem⟩, H.next)

/-- Association-list search: the value stored under key `a`, if any. -/
def assocFind (a : Nat) : List (Nat × Obj) → Option Obj
  | [] => none
  | q :: l => if q.1 = a then some q.2 else assocFind a l

/-- Association-list removal: drops every entry whose key is `a`. -/
def assocRemove (a : Nat) : List (Nat × Obj) → List (Nat × Obj)
  | [] => []
  | q :: l => if q.1 = a then assocRemove a l else q :: assocRemove a l

/-- `delete`: remove the object at address `a` from the heap. -/
def Heap.free (H : Heap) (a : Nat) : Heap :=
  ⟨H.next, assocRemove a H.mem⟩

/-- Dereference: the object currently stored at address `a`, if live. -/
def Heap.lookup (H : Heap) (a : Nat) : Option Obj :=
  assocFind a H.mem

/-- Heap well-formedness: every live address was produced by the bump
allocator, and addresses are not duplicated. -/
def Heap.wf (H : Heap) : Prop :=
  (∀ q ∈ H.mem, q.1 < H.next) ∧ (H.mem.map Prod.fst).Nodup

/-- The numeric address value of a raw pointer: the null pointer is 0, the
object in heap slot `a` sits at the nonzero machine address `a + 1`. -/
def ptrVal : Option Nat → Nat
  | none => 0
  | some a => a + 1

/-- The result of `dynamic_cast<T*>` applied to a pointer: null maps to null,
a live object converts exactly when its dynamic type can be viewed as the
target tag `t`, and the address is otherwise unchanged (the embedding treats
an object as a single unit, so base-subobject adjustments do not move it). -/
def dynCastA (isA : Nat → Nat → Bool) (H : Heap) (t : Nat) : Option Nat → Option Nat
  | none => none
  | some a =>
    match H.lookup a with
    | some o => if isA o.dynType t then some a else none
    | none => none

/-- The control-block hierarchy of cloned_ptr.h.
`impl u p` is `control_block_impl<T, U>` with `U` tagged `u`, owning the
object at `p` (`none` once released); the four wrappers are
`delegating_control_block`, `downcasting_delegating_control_block`,
`dynamic_casting_delegating_control_block` (with its cached pointer `p_`)
and `const_casting_delegating_control_block`. -/
inductive CB : Type where
  | impl (uTag : Nat) (p : Option Nat)
  | delegating (inner : CB)
  | downcasting (tTag : Nat) (inner : CB)
  | dynamicCasting (tTag : Nat) (inner : CB) (cached : Option Nat)
  | constCasting (inner : CB)
deriving DecidableEq, Repr

/-- `control_block::ptr()`: `impl` returns its owned pointer, the delegating
and casting blocks forward to the inner block (pointer conversions do not
move the object in this embedding), and the dynamic-casting block returns its
cached pointer. -/
def CB.ptrCB : CB → Option Nat
  | .impl _ p => p
  | .delegating inner => inner.ptrCB
  | .downcasting _ inner => inner.ptrCB
  | .dynamicCasting _ _ cached => cached
  | .constCasting inner => inner.ptrCB

/-- `control_block::release()`: returns the owned pointer and the mutated
block.  `impl` nulls its pointer; the wrappers release the inner block; the
dynamic-casting block releases the inner block but returns its cached pointer
(and, like the C++, does not null the cache). -/
def CB.releaseCB : CB → Option Nat × CB
  | .impl u p => (p, .impl u none)
  | .delegating inner =>
    let r := inner.releaseCB
    (r.1, .delegating r.2)
  | .downcasting t inner =>
    let r := inner.releaseCB
    (r.1, .downcasting t r.2)
  | .dynamicCasting t inner cached =>
    let r := inner.releaseCB
    (cached, .dynamicCasting t r.2 cached)
  | .constCasting inner =>
    let r := inner.releaseCB
    (r.1, .constCasting r.2)

/-- The address of the object a block chain still owns (the `p_` of its
innermost `control_block_impl`). -/
def CB.ownedAddr : CB → Option Nat
  | .impl _ p => p
  | .delegating inner => inner.ownedAddr
  | .downcasting _ inner => inner.ownedAddr
  | .dynamicCasting _ inner _ => inner.ownedAddr
  | .constCasting inner => inner.ownedAddr

/-- The destructor of a control block: `~control_block_impl` deletes the
owned object; the wrappers destroy the inner block. -/
def CB.destroyCB : CB → Heap → Heap
  | .impl _ p, H =>
    match p with
    | some a => H.free a
    | none => H
  | .delegating inner, H => inner.destroyCB H
  | .downcasting _ inner, H => inner.destroyCB H
  | .dynamicCasting _ inner _, H => inner.destroyCB H
  | .constCasting inner, H => inner.destroyCB H

/-- `control_block::clone()`: `impl u p` performs `new U(*p_)` — a fresh
object whose dynamic type is the `U` bound when the block was constructed and
whose state is copied from the current object; each wrapper clones its inner
block and re-wraps it, and the dynamic-casting wrapper's constructor re-runs
`dynamic_cast` on the clone's pointer to fill its cache.  (If `p` is null the
C++ would dereference null, which the public interface never does; the
embedding returns the block unchanged there.) -/
def CB.cloneCB (isA : Nat → Nat → Bool) : CB → Heap → CB × Heap
  | .impl u p, H =>
    match p with
    | none => (.impl u none, H)
    | some a =>
      let st : Int :=
        match H.lookup a with
        | some o => o.state
        | none => 0
      let r := H.alloc ⟨u, st⟩
      (.impl u (some r.2), r.1)
  | .delegating inner, H =>
    let r := CB.cloneCB isA inner H
    (.delegating r.1, r.2)
  | .downcasting t inner, H =>
    let r := CB.cloneCB isA inner H
    (.downcasting t r.1, r.2)
  | .dynamicCasting t inner _, H =>
    let r := CB.cloneCB isA inner H
    (.dynamicCasting t r.1 (dynCastA isA r.2 t r.1.ptrCB), r.2)
  | .constCasting inner, H =>
    let r := CB.cloneCB isA inner H
    (.constCasting r.1, r.2)

/-- Well-formedness of a control-block chain with respect to a heap: an
`impl` block owns a live object whose dynamic type is exactly the `U` the
block was constructed with (every public construction path guarantees this),
and a dynamic-casting block's non-null cache is the inner block's pointer,
pointing at a live object compatible with the block's target tag. -/
def CB.wf (isA : Nat → Nat → Bool) (H : Heap) : CB → Prop
  | .impl u p => ∀ a, p = some a → ∃ o, H.lookup a = some o ∧ o.dynType = u
  | .delegating inner => inner.wf isA H
  | .downcasting _ inner => inner.wf isA H
  | .dynamicCasting t inner cached =>
    inner.wf isA H ∧
      ∀ a, cached = some a →
        inner.ptrCB = some a ∧ ∃ o, H.lookup a = some o ∧ isA o.dynType t = true
  | .constCasting inner => inner.wf isA H

/-- `cloned_ptr<T>`: the cached observer pointer `ptr_` and the owned control
block `cb_` (a null `unique_ptr` is `none`). -/
structure Handle where
  ptr_ : Option Nat
  cb_ : Option CB
deriving DecidableEq, Repr

/-- `get()`: returns the observer pointer. -/
def Handle.get (h : Handle) : Option Nat := h.ptr_

/-- `operator bool`: true exactly when the observer pointer is non-null. -/
def Handle.boolOp (h : Handle) : Bool := h.ptr_.isSome

/-- `operator->` of cloned_ptr: returns `get()`; the source has no assertion
here (its tests REQUIRE that it returns null on an empty handle). -/
def Handle.opArrow (h : Handle) : Option Nat := h.get

/-- The assertion condition of cloned_ptr's `operator*` (`assert(ptr_)`). -/
def Handle.starAssert (h : Handle) : Bool := h.ptr_.isSome

/-- The value read by `operator*` (a dereference of the observer pointer). -/
def Handle.opStar (h : Handle) (H : Heap) : Option Obj :=
  match h.ptr_ with
  | some a => H.lookup a
  | none => none

/-- The state invariant claimed for the handle: the observer is null iff the
control-block pointer is null, and a present control block locates exactly
the observer. -/
def Handle.inv (h : Handle) : Prop :=
  (h.ptr_ = none ↔ h.cb_ = none) ∧ ∀ cb, h.cb_ = some cb → h.ptr_ = cb.ptrCB

/-- Well-formedness of the handle's control-block chain. -/
def Handle.wfH (isA : Nat → Nat → Bool) (H : Heap) (h : Handle) : Prop :=
  ∀ cb, h.cb_ = some cb → cb.wf isA H

/-- The destructor of the handle: destroys the control block, if any. -/
def Handle.destroy (h : Handle) (H : Heap) : Heap :=
  match h.cb_ with
  | some cb => cb.destroyCB H
  | none => H

/-- The raw-pointer constructor `cloned_ptr(U* u)`: null yields the empty
handle, otherwise the handle adopts `u` via `control_block_impl<T, U>` with
`uTag` the static type `U` of the call site.  (The source performs no
dynamic-type check here.) -/
def Handle.fromPtr (u : Option Nat) (uTag : Nat) : Handle :=
  match u with
  | none => ⟨none, none⟩
  | some a => ⟨some a, some (.impl uTag (some a))⟩

/-- `make_cloned_ptr<T>(args...)`: allocates a fresh `T` (dynamic type `uTag`,
state `st`) and wraps it. -/
def makeClonedPtr (uTag : Nat) (st : Int) (H : Heap) : Handle × Heap :=
  let r := H.alloc ⟨uTag, st⟩
  (Handle.fromPtr (some r.2) uTag, r.1)

/-- The copy constructor `cloned_ptr(const cloned_ptr&)`: empty source gives
the empty handle; otherwise the source's control block is cloned and the
clone's `ptr()` is cached.  (A non-null observer with a null control block is
unreachable through the public interface; the embedding returns the empty
handle there.) -/
def Handle.copyCtor (isA : Nat → Nat → Bool) (p : Handle) (H : Heap) : Handle × Heap :=
  if p.ptr_.isNone then (⟨none, none⟩, H)
  else
    match p.cb_ with
    | some cb =>
      let r := cb.cloneCB isA H
      (⟨r.1.ptrCB, some r.1⟩, r.2)
    | none => (⟨none, none⟩, H)

/-- The move constructor `cloned_ptr(cloned_ptr&&)`: steals the observer and
the control block, leaving the source with both null; no allocation. -/
def Handle.moveCtor (p : Handle) (H : Heap) : Handle × Handle × Heap :=
  (⟨p.ptr_, p.cb_⟩, ⟨none, none⟩, H)

/-- Copy assignment `operator=(const cloned_ptr&)`.  `same` models the
`&p == this` address check (true exactly on self-assignment).  On the
non-self path: an empty source resets the target (destroying its object); a
non-empty source is cloned first and only then is the old control block (and
with it the old object) destroyed by the `unique_ptr` move-assignment. -/
def Handle.copyAssign (isA : Nat → Nat → Bool) (same : Bool) (t p : Handle) (H : Heap) :
    Handle × Heap :=
  if same then (t, H)
  else if p.ptr_.isNone then (⟨none, none⟩, t.destroy H)
  else
    match p.cb_ with
    | some cb =>
      let r := cb.cloneCB isA H
      (⟨r.1.ptrCB, some r.1⟩, t.destroy r.2)
    | none => (t, H)

/-- Move assignment `operator=(cloned_ptr&&)`.  `same` models the
`&p == this` check.  On the non-self path the target's old control block is
destroyed (freeing its object), the source's fields are taken over, and the
source is left empty.  Returns (new target, new source, heap). -/
def Handle.moveAssign (same : Bool) (t p : Handle) (H : Heap) : Handle × Handle × Heap :=
  if same then (t, p, H)
  else (⟨p.ptr_, p.cb_⟩, ⟨none, none⟩, t.destroy H)

/-- `release()`: an empty handle returns null unchanged; otherwise the
observer is nulled and `cb_->release()` is returned — the control block
object itself stays in place. -/
def Handle.releaseOp (h : Handle) : Option Nat × Handle :=
  match h.ptr_ with
  | none => (none, h)
  | some _ =>
    match h.cb_ with
    | some cb =>
      let r := cb.releaseCB
      (r.1, ⟨none, some r.2⟩)
    | none => (none, ⟨none, none⟩)

/-- `reset(U* u)`: a pointer equal to the current observer is a no-op;
otherwise the handle is move-assigned from a freshly constructed handle over
`u`, destroying the previously owned object. -/
def Handle.reset (h : Handle) (u : Option Nat) (uTag : Nat) (H : Heap) : Handle × Heap :=
  if u = h.ptr_ then (h, H)
  else (Handle.fromPtr u uTag, h.destroy H)

/-- `swap`: exchanges observers and control blocks. -/
def Handle.swapH (a b : Handle) : Handle × Handle :=
  (⟨b.ptr_, b.cb_⟩, ⟨a.ptr_, a.cb_⟩)

/-- The class hierarchy of TestCloningPtr.cpp, as an is-a relation on type
tags: tag 1 (`DerivedType`) derives from tag 0 (`BaseType`); every type is-a
itself; all other pairs are unrelated. -/
def isAx : Nat → Nat → Bool := fun d t => d == t || (d == 1 && t == 0)

/-- `std::dynamic_pointer_cast<T>` for cloned_ptr: if `dynamic_cast` of the
source's observer fails (including a null observer) the cast returns the
empty handle immediately, with no copy made; otherwise the source is copied
and the copy's control block is wrapped in a dynamic-casting block whose
cache (and the new observer) is the `dynamic_cast` of the copy's pointer.
(A non-empty source without a control block cannot reach the success branch
through the public interface; the embedding returns the empty handle.) -/
def dynamicPointerCast (isA : Nat → Nat → Bool) (tTag : Nat) (p : Handle) (H : Heap) :
    Handle × Heap :=
  match dynCastA isA H tTag p.get with
  | none => (⟨none, none⟩, H)
  | some _ =>
    let r := p.copyCtor isA H
    match r.1.cb_ with
    | some cb =>
      (⟨dynCastA isA r.2 tTag r.1.ptr_,
        some (.dynamicCasting tTag cb (dynCastA isA r.2 tTag cb.ptrCB))⟩, r.2)
    | none => (⟨none, none⟩, r.2)

/-- `std::static_pointer_cast<T>` for cloned_ptr: copies the source and wraps
the copy's control block in a downcasting block; the observer address is
unchanged by the cast in this embedding.  (On an empty source the C++ wraps a
null delegate, producing a block none of whose operations may be called; the
embedding returns the empty handle for that input.) -/
def staticPointerCast (isA : Nat → Nat → Bool) (tTag : Nat) (p : Handle) (H : Heap) :
    Handle × Heap :=
  let r := p.copyCtor isA H
  match r.1.cb_ with
  | some cb => (⟨r.1.ptr_, some (.downcasting tTag cb)⟩, r.2)
  | none => (⟨none, none⟩, r.2)

/-- `std::const_pointer_cast<T>` for cloned_ptr: copies the source and wraps
the copy's control block in a const-casting block.  (Same remark as for
`staticPointerCast` about an empty source.) -/
def constPointerCast (isA : Nat → Nat → Bool) (p : Handle) (H : Heap) : Handle × Heap :=
  let r := p.copyCtor isA H
  match r.1.cb_ with
  | some cb => (⟨r.1.ptr_, some (.constCasting cb)⟩, r.2)
  | none => (⟨none, none⟩, r.2)

/-!  Raw pointer comparisons.  These model the built-in C++ pointer
comparisons on observer addresses: the null pointer has address value 0 and
the object in slot `a` has address value `a + 1` (see `ptrVal`). -/

/-- Equality of raw pointers. -/
def ptrEqB : Option Nat → Option Nat → Bool
  | none, none => true
  | none, some _ => false
  | some _, none => false
  | some a, some b => a == b

/-- Inequality of raw pointers. -/
def ptrNeB : Option Nat → Option Nat → Bool
  | none, none => false
  | none, some _ => true
  | some _, none => true
  | some a, some b => a != b

/-- Strict order on raw pointers (null is the least address). -/
def ptrLtB : Option Nat → Option Nat → Bool
  | none, none => false
  | none, some _ => true
  | some _, none => false
  | some a, some b => decide (a < b)

/-- Reverse strict order on raw pointers. -/
def ptrGtB : Option Nat → Option Nat → Bool
  | none, none => false
  | none, some _ => false
  | some _, none => true
  | some a, some b => decide (b < a)

/-- Non-strict order on raw pointers. -/
def ptrLeB : Option Nat → Option Nat → Bool
  | none, none => true
  | none, some _ => true
  | some _, none => false
  | some a, some b => decide (a ≤ b)

/-- Reverse non-strict order on raw pointers. -/
def ptrGeB : Option Nat → Option Nat → Bool
  | none, none => true
  | none, some _ => false
  | some _, none => true
  | some a, some b => decide (b ≤ a)

/-!  Handle comparisons.  In cloned_ptr.h the comparison operators exist only
as a commented-out block ("TODO: Like shared_ptr implementations of
comparisons"); the active operators live in the repository's cloning_ptr.h
header, which is exercised by TestCloningPtr.cpp but absent from the sources
available here.  Each operator applies the corresponding raw-pointer
comparison to `t.get()` and `u.get()`. -/

/-- Modelled from the spec: `operator==` between two handles (missing
cloning_ptr.h; present as a commented-out block in cloned_ptr.h): compares
the raw observer pointers. -/
def opEq (t u : Handle) : Bool := ptrEqB t.get u.get

/-- Modelled from the spec: `operator!=` between two handles. -/
def opNe (t u : Handle) : Bool := ptrNeB t.get u.get

/-- Modelled from the spec: `operator<` between two handles. -/
def opLt (t u : Handle) : Bool := ptrLtB t.get u.get

/-- Modelled from the spec: `operator>` between two handles. -/
def opGt (t u : Handle) : Bool := ptrGtB t.get u.get

/-- Modelled from the spec: `operator<=` between two handles. -/
def opLe (t u : Handle) : Bool := ptrLeB t.get u.get

/-- Modelled from the spec: `operator>=` between two handles. -/
def opGe (t u : Handle) : Bool := ptrGeB t.get u.get

/-- Modelled from the spec: `operator==(handle, nullptr)`. -/
def opEqNil (t : Handle) : Bool := ptrEqB t.get none

/-- Modelled from the spec: `operator==(nullptr, handle)`. -/
def opNilEq (t : Handle) : Bool := ptrEqB none t.get

/-- Modelled from the spec: `operator!=(handle, nullptr)`. -/
def opNeNil (t : Handle) : Bool := ptrNeB t.get none

/-- Modelled from the spec: `operator!=(nullptr, handle)`. -/
def opNilNe (t : Handle) : Bool := ptrNeB none t.get

/-- Modelled from the spec: `operator<(handle, nullptr)`. -/
def opLtNil (t : Handle) : Bool := ptrLtB t.get none

/-- Modelled from the spec: `operator<(nullptr, handle)`. -/
def opNilLt (t : Handle) : Bool := ptrLtB none t.get

/-- Modelled from the spec: `operator>(handle, nullptr)`. -/
def opGtNil (t : Handle) : Bool := ptrGtB t.get none

/-- Modelled from the spec: `operator>(nullptr, handle)`. -/
def opNilGt (t : Handle) : Bool := ptrGtB none t.get

/-- Modelled from the spec: `operator<=(handle, nullptr)`. -/
def opLeNil (t : Handle) : Bool := ptrLeB t.get none

/-- Modelled from the spec: `operator<=(nullptr, handle)`. -/
def opNilLe (t : Handle) : Bool := ptrLeB none t.get

/-- Modelled from the spec: `operator>=(handle, nullptr)`. -/
def opGeNil (t : Handle) : Bool := ptrGeB t.get none

/-- Modelled from the spec: `operator>=(nullptr, handle)`. -/
def opNilGe (t : Handle) : Bool := ptrGeB none t.get

/-!  Failure-instrumented operations, for the exception-safety claims.  A
budget of allocation units is threaded through: every `new` (of an object or
of a control block) consumes one unit and throws `std::bad_alloc` when the
budget is exhausted.  On failure the heap after C++ stack unwinding is
returned, so that leaked objects remain visible in it. -/

/-- Budget-instrumented `control_block::clone()`.  For `impl`: `new U(*p_)`
first (one unit), then `std::make_unique<control_block_impl>(raw)` (one
unit); if the second allocation fails, the raw duplicate is NOT freed by
unwinding (it is held by a raw pointer), so it stays in the heap — this is
the leak of cloned_ptr.h.  For the wrappers: the inner clone runs first; if
the wrapper's own allocation then fails, the inner clone is destroyed by the
`unique_ptr` temporary's destructor, freeing its duplicate. -/
def CB.cloneF (isA : Nat → Nat → Bool) : CB → Heap → Nat → Except Heap (CB × Heap × Nat)
  | .impl u p, H, b =>
    match p with
    | none => .ok (.impl u none, H, b)
    | some a =>
      match b with
      | 0 => .error H
      | b' + 1 =>
        let st : Int :=
          match H.lookup a with
          | some o => o.state
          | none => 0
        let r := H.alloc ⟨u, st⟩
        match b' with
        | 0 => .error r.1
        | b'' + 1 => .ok (.impl u (some r.2), r.1, b'')
  | .delegating inner, H, b =>
    match CB.cloneF isA inner H b with
    | .error H' => .error H'
    | .ok (c, H2, b2) =>
      match b2 with
      | 0 => .error (c.destroyCB H2)
      | b2' + 1 => .ok (.delegating c, H2, b2')
  | .downcasting t inner, H, b =>
    match CB.cloneF isA inner H b with
    | .error H' => .error H'
    | .ok (c, H2, b2) =>
      match b2 with
      | 0 => .error (c.destroyCB H2)
      | b2' + 1 => .ok (.downcasting t c, H2, b2')
  | .dynamicCasting t inner _, H, b =>
    match CB.cloneF isA inner H b with
    | .error H' => .error H'
    | .ok (c, H2, b2) =>
      match b2 with
      | 0 => .error (c.destroyCB H2)
      | b2' + 1 => .ok (.dynamicCasting t c (dynCastA isA H2 t c.ptrCB), H2, b2')
  | .constCasting inner, H, b =>
    match CB.cloneF isA inner H b with
    | .error H' => .error H'
    | .ok (c, H2, b2) =>
      match b2 with
      | 0 => .error (c.destroyCB H2)
      | b2' + 1 => .ok (.constCasting c, H2, b2')

/-- Budget-instrumented copy constructor: an empty source allocates nothing;
otherwise the source's block is cloned, and a clone failure propagates out of
the constructor (no handle is produced). -/
def Handle.copyCtorF (isA : Nat → Nat → Bool) (p : Handle) (H : Heap) (b : Nat) :
    Except Heap (Handle × Heap × Nat) :=
  if p.ptr_.isNone then .ok (⟨none, none⟩, H, b)
  else
    match p.cb_ with
    | some cb =>
      match cb.cloneF isA H b with
      | .error H' => .error H'
      | .ok (c, H2, b2) => .ok (⟨c.ptrCB, some c⟩, H2, b2)
    | none => .ok (⟨none, none⟩, H, b)

/-- Budget-instrumented copy assignment: the clone of the source runs before
the target is touched, so on a clone failure the target handle is left
exactly as it was (the error branch carries only the unwound heap — the
caller keeps the old target). -/
def Handle.copyAssignF (isA : Nat → Nat → Bool) (same : Bool) (t p : Handle) (H : Heap)
    (b : Nat) : Except Heap (Handle × Heap × Nat) :=
  if same then .ok (t, H, b)
  else if p.ptr_.isNone then .ok (⟨none, none⟩, t.destroy H, b)
  else
    match p.cb_ with
    | some cb =>
      match cb.cloneF isA H b with
      | .error H' => .error H'
      | .ok (c, H2, b2) => .ok (⟨c.ptrCB, some c⟩, t.destroy H2, b2)
    | none => .ok (t, H, b)

end PolyVal

namespace PV

open PolyVal (Obj Heap)

/-- Errors thrown by polymorphic_value construction
(`bad_polymorphic_value_construction`). -/
inductive PVError : Type where
  | badConstruction
deriving DecidableEq, Repr

/-- The control blocks of polymorphic_value.h that the claims touch:
`pointer_control_block<T, U, C, D>` with its owned pointer, the static type
tag `U`, and whether the copier `C` and deleter `D` are the defaults
(`default_copy<U>` / `std::default_delete<U>`). -/
inductive PVCB : Type where
  | pointerCB (uTag : Nat) (copierDefault deleterDefault : Bool) (p : Option Nat)
deriving DecidableEq, Repr

/-- `polymorphic_value<T>`: observer pointer plus control block. -/
structure PVHandle where
  ptr_ : Option Nat
  cb_ : Option PVCB
deriving DecidableEq, Repr

/-- The constructor `polymorphic_value(U* u, C copier, D deleter)`: null
yields the empty handle; otherwise, when both the copier and the deleter are
the defaults (so type identity is checkable), a mismatch between
`typeid(*u)` — the dynamic type of the pointee — and the static type `U`
throws `bad_polymorphic_value_construction` before any ownership is taken;
otherwise a pointer control block adopts `u`. -/
def construct (H : Heap) (u : Option Nat) (uTag : Nat)
    (copierDefault deleterDefault : Bool) : Except PVError PVHandle :=
  match u with
  | none => .ok ⟨none, none⟩
  | some a =>
    if deleterDefault && copierDefault && !((H.lookup a).map Obj.dynType == some uTag) then
      .error .badConstruction
    else
      .ok ⟨some a, some (.pointerCB uTag copierDefault deleterDefault (some a))⟩

/-- The assertion condition of polymorphic_value's const `operator->`
(`assert(ptr_)`). -/
def PVHandle.arrowAssertConst (h : PVHandle) : Bool := h.ptr_.isSome

/-- The assertion condition of polymorphic_value's mutable `operator->`
(`assert(*this)`, i.e. `bool(cb_)`). -/
def PVHandle.arrowAssertMut (h : PVHandle) : Bool := h.cb_.isSome

/-- The assertion condition of polymorphic_value's `operator*`
(`assert(*this)`, i.e. `bool(cb_)`). -/
def PVHandle.starAssert (h : PVHandle) : Bool := h.cb_.isSome

/-- `detail::allocate_object<T>`: allocate storage (one budget unit), then
construct in it; if construction throws (`ctorThrows`), the storage is
deallocated before the exception propagates.  On failure the returned heap
is the heap after unwinding. -/
def allocateObject (H : Heap) (o : Obj) (b : Nat) (ctorThrows : Bool) :
    Except Heap (Nat × Heap × Nat) :=
  match b with
  | 0 => .error H
  | b' + 1 =>
    let r := H.alloc o
    if ctorThrows then .error (r.1.free r.2) else .ok (r.2, r.1, b')

end PV

namespace PolyVal

theorem Heap.count_alloc (H : Heap) (o : Obj) : (H.alloc o).1.count = H.count + 1 := rfl

theorem Heap.lookup_alloc_self (H : Heap) (o : Obj) :
    (H.alloc o).1.lookup H.next = some o := by
  simp [Heap.alloc, Heap.lookup, assocFind]

theorem Heap.lookup_alloc_ne (H : Heap) (o : Obj) (a : Nat) (h : a ≠ H.next) :
    (H.alloc o).1.lookup a = H.lookup a := by
  simp only [Heap.alloc, Heap.lookup, assocFind]
  rw [if_neg (fun he => h he.symm)]

theorem assocFind_mem (a : Nat) (o : Obj) (l : List (Nat × Obj))
    (h : assocFind a l = some o) : (a, o) ∈ l := by
  induction l with
  | nil => cases h
  | cons p l ih =>
    by_cases hp : p.1 = a
    · simp only [assocFind, if_pos hp] at h
      have hv : p.2 = o := Option.some.inj h
      rw [← hp, ← hv]
      exact List.mem_cons_self _ _
    · simp only [assocFind, if_neg hp] at h
      exact List.mem_cons_of_mem _ (ih h)

theorem Heap.mem_of_lookup (H : Heap) (a : Nat) (o : Obj) (h : H.lookup a = some o) :
    (a, o) ∈ H.mem :=
  assocFind_mem a o H.mem h

theorem Heap.lookup_lt_next (H : Heap) (hw : H.wf) (a : Nat) (o : Obj)
    (h : H.lookup a = some o) : a < H.next :=
  hw.1 (a, o) (Heap.mem_of_lookup H a o h)

theorem Heap.wf_alloc (H : Heap) (o : Obj) (hw : H.wf) : (H.alloc o).1.wf := by
  constructor
  · intro q hq
    rcases List.mem_cons.mp hq with h | h
    · subst h; exact Nat.lt_succ_self _
    · exact Nat.lt_succ_of_lt (hw.1 q h)
  · refine List.nodup_cons.mpr ⟨?_, hw.2⟩
    intro hmem
    rcases List.mem_map.mp hmem with ⟨q, hq, hfst⟩
    exact absurd (hfst ▸ hw.1 q hq) (Nat.lt_irrefl _)

theorem assocFind_remove_self (a : Nat) (l : List (Nat × Obj)) :
    assocFind a (assocRemove a l) = none := by
  induction l with
  | nil => rfl
  | cons p l ih =>
    by_cases hp : p.1 = a
    · simp only [assocRemove, if_pos hp]
      exact ih
    · simp only [assocRemove, if_neg hp, assocFind]
      exact ih

theorem Heap.lookup_free_self (H : Heap) (a : Nat) : (H.free a).lookup a = none :=
  assocFind_remove_self a H.mem

theorem assocFind_remove_ne (a b : Nat) (h : b ≠ a) (l : List (Nat × Obj)) :
    assocFind b (assocRemove a l) = assocFind b l := by
  induction l with
  | nil => rfl
  | cons p l ih =>
    by_cases hp : p.1 = a
    · have hpb : ¬ p.1 = b := by rw [hp]; omega
      simp only [assocRemove, if_pos hp, assocFind]
      rw [if_neg hpb]
      exact ih
    · simp only [assocRemove, if_neg hp, assocFind]
      by_cases hpb : p.1 = b
      · rw [if_pos hpb, if_pos hpb]
      · rw [if_neg hpb, if_neg hpb]
        exact ih

theorem Heap.lookup_free_ne (H : Heap) (a b : Nat) (h : b ≠ a) :
    (H.free a).lookup b = H.lookup b :=
  assocFind_remove_ne a b h H.mem

theorem assocRemove_eq_self (a : Nat) (l : List (Nat × Obj)) (h : ∀ x ∈ l, x.1 ≠ a) :
    assocRemove a l = l := by
  induction l with
  | nil => rfl
  | cons p l ih =>
    simp only [assocRemove, if_neg (h p (List.mem_cons_self p l))]
    rw [ih (fun x hx => h x (List.mem_cons_of_mem _ hx))]

theorem assocRemove_length (a : Nat) (o : Obj) (l : List (Nat × Obj))
    (hnd : (l.map Prod.fst).Nodup) (hmem : (a, o) ∈ l) :
    (assocRemove a l).length + 1 = l.length := by
  induction l with
  | nil => cases hmem
  | cons p l ih =>
    rw [List.map_cons, List.nodup_cons] at hnd
    by_cases hp : p.1 = a
    · have hall : ∀ x ∈ l, x.1 ≠ a := by
        intro x hx hxa
        exact hnd.1 (List.mem_map.mpr ⟨x, hx, by rw [hxa, hp]⟩)
      simp only [assocRemove, if_pos hp, assocRemove_eq_self a l hall, List.length_cons]
    · have hmem' : (a, o) ∈ l := by
        rcases List.mem_cons.mp hmem with heq | hl
        · rw [← heq] at hp; simp at hp
        · exact hl
      have hih := ih hnd.2 hmem'
      simp only [assocRemove, if_neg hp, List.length_cons]
      omega

theorem Heap.count_free (H : Heap) (hw : H.wf) (a : Nat) (o : Obj)
    (h : H.lookup a = some o) : (H.free a).count + 1 = H.count :=
  assocRemove_length a o H.mem hw.2 (Heap.mem_of_lookup H a o h)

theorem mem_assocRemove_subset (a : Nat) (l : List (Nat × Obj)) :
    ∀ q ∈ assocRemove a l, q ∈ l := by
  induction l with
  | nil => intro q hq; cases hq
  | cons p l ih =>
    intro q hq
    by_cases hp : p.1 = a
    · simp only [assocRemove, if_pos hp] at hq
      exact List.mem_cons_of_mem _ (ih q hq)
    · simp only [assocRemove, if_neg hp] at hq
      rcases List.mem_cons.mp hq with h | h
      · exact h ▸ List.mem_cons_self _ _
      · exact List.mem_cons_of_mem _ (ih q h)

theorem assocRemove_map_sublist (a : Nat) (l : List (Nat × Obj)) :
    ((assocRemove a l).map Prod.fst).Sublist (l.map Prod.fst) := by
  induction l with
  | nil => simp [assocRemove]
  | cons p l ih =>
    by_cases hp : p.1 = a
    · simp only [assocRemove, if_pos hp, List.map_cons]
      exact ih.cons _
    · simp only [assocRemove, if_neg hp, List.map_cons]
      exact ih.cons₂ _

theorem Heap.wf_free (H : Heap) (hw : H.wf) (a : Nat) : (H.free a).wf := by
  constructor
  · intro q hq
    exact hw.1 q (mem_assocRemove_subset a H.mem q hq)
  · exact List.Nodup.sublist (assocRemove_map_sublist a H.mem) hw.2

theorem CB.releaseCB_fst (cb : CB) : cb.releaseCB.1 = cb.ptrCB := by
  induction cb with
  | impl u p => rfl
  | delegating inner ih => simpa [CB.releaseCB, CB.ptrCB] using ih
  | downcasting t inner ih => simpa [CB.releaseCB, CB.ptrCB] using ih
  | dynamicCasting t inner cached ih => rfl
  | constCasting inner ih => simpa [CB.releaseCB, CB.ptrCB] using ih

theorem CB.releaseCB_destroy (cb : CB) (H : Heap) : cb.releaseCB.2.destroyCB H = H := by
  induction cb with
  | impl u p => rfl
  | delegating inner ih => simpa [CB.releaseCB, CB.destroyCB] using ih
  | downcasting t inner ih => simpa [CB.releaseCB, CB.destroyCB] using ih
  | dynamicCasting t inner cached ih => simpa [CB.releaseCB, CB.destroyCB] using ih
  | constCasting inner ih => simpa [CB.releaseCB, CB.destroyCB] using ih

theorem CB.destroyCB_eq (cb : CB) (H : Heap) :
    cb.destroyCB H = match cb.ownedAddr with
      | some a => H.free a
      | none => H := by
  induction cb with
  | impl u p => cases p <;> rfl
  | delegating inner ih => simpa [CB.destroyCB, CB.ownedAddr] using ih
  | downcasting t inner ih => simpa [CB.destroyCB, CB.ownedAddr] using ih
  | dynamicCasting t inner cached ih => simpa [CB.destroyCB, CB.ownedAddr] using ih
  | constCasting inner ih => simpa [CB.destroyCB, CB.ownedAddr] using ih

theorem CB.ownedAddr_of_wf (isA : Nat → Nat → Bool) (H : Heap) (cb : CB)
    (hwf : cb.wf isA H) : ∀ a, cb.ptrCB = some a → cb.ownedAddr = some a := by
  induction cb with
  | impl u p => intro a ha; exact ha
  | delegating inner ih => exact ih hwf
  | downcasting t inner ih => exact ih hwf
  | dynamicCasting t inner cached ih =>
    intro a ha
    exact ih hwf.1 a ((hwf.2 a ha).1)
  | constCasting inner ih => exact ih hwf

theorem CB.cloneCB_spec (isA : Nat → Nat → Bool) (H : Heap) (cb : CB) :
    cb.wf isA H → ∀ a, cb.ptrCB = some a →
      ∃ o, H.lookup a = some o ∧
        (cb.cloneCB isA H).2 = (H.alloc o).1 ∧
        (cb.cloneCB isA H).1.ptrCB = some H.next := by
  induction cb with
  | impl u p =>
    intro hwf a ha
    have hp : p = some a := ha
    rcases hwf a hp with ⟨o, ho, hdt⟩
    have hobj : (⟨u, o.state⟩ : Obj) = o := by rw [← hdt]
    refine ⟨o, ho, ?_, ?_⟩
    · simp [CB.cloneCB, hp, ho, hobj]
    · simp [CB.cloneCB, hp, ho, CB.ptrCB, Heap.alloc]
  | delegating inner ih =>
    intro hwf a ha
    rcases ih hwf a ha with ⟨o, ho, h2, h3⟩
    exact ⟨o, ho, by simpa [CB.cloneCB] using h2, by simpa [CB.cloneCB, CB.ptrCB] using h3⟩
  | downcasting t inner ih =>
    intro hwf a ha
    rcases ih hwf a ha with ⟨o, ho, h2, h3⟩
    exact ⟨o, ho, by simpa [CB.cloneCB] using h2, by simpa [CB.cloneCB, CB.ptrCB] using h3⟩
  | dynamicCasting t inner cached ih =>
    intro hwf a ha
    rcases hwf.2 a ha with ⟨hip, o2, ho2, hisa⟩
    rcases ih hwf.1 a hip with ⟨o, ho, h2, h3⟩
    have ho2o : o2 = o := Option.some.inj (ho2.symm.trans ho)
    rw [ho2o] at hisa
    refine ⟨o, ho, by simpa [CB.cloneCB] using h2, ?_⟩
    have hcache :
        dynCastA isA (CB.cloneCB isA inner H).2 t (CB.cloneCB isA inner H).1.ptrCB =
          some H.next := by
      rw [h3, h2]
      simp [dynCastA, Heap.lookup_alloc_self, hisa]
    simp [CB.cloneCB, CB.ptrCB, hcache]
  | constCasting inner ih =>
    intro hwf a ha
    rcases ih hwf a ha with ⟨o, ho, h2, h3⟩
    exact ⟨o, ho, by simpa [CB.cloneCB] using h2, by simpa [CB.cloneCB, CB.ptrCB] using h3⟩

end PolyVal

namespace PolyVal

theorem Handle.inv_empty : (⟨none, none⟩ : Handle).inv :=
  ⟨Iff.intro (fun _ => rfl) (fun _ => rfl), fun cb hcb => by cases hcb⟩

theorem Handle.inv_mk (a : Nat) (cb : CB) (h : cb.ptrCB = some a) :
    (⟨some a, some cb⟩ : Handle).inv :=
  ⟨by simp, fun cb' hcb' => by cases hcb'; exact h.symm⟩

theorem Handle.cb_some_of_ptr_some (h : Handle) (hinv : h.inv) (a : Nat)
    (hp : h.ptr_ = some a) : ∃ cb, h.cb_ = some cb ∧ cb.ptrCB = some a := by
  cases hcb : h.cb_ with
  | none => rw [hinv.1.mpr hcb] at hp; cases hp
  | some cb => exact ⟨cb, rfl, (hinv.2 cb hcb) ▸ hp⟩

theorem CB.lookup_of_wf (isA : Nat → Nat → Bool) (H : Heap) (cb : CB)
    (hwf : cb.wf isA H) : ∀ a, cb.ptrCB = some a → ∃ o, H.lookup a = some o := by
  induction cb with
  | impl u p =>
    intro a ha
    rcases hwf a ha with ⟨o, ho, _⟩
    exact ⟨o, ho⟩
  | delegating inner ih => exact ih hwf
  | downcasting t inner ih => exact ih hwf
  | dynamicCasting t inner cached ih =>
    intro a ha
    rcases hwf.2 a ha with ⟨_, o, ho, _⟩
    exact ⟨o, ho⟩
  | constCasting inner ih => exact ih hwf

theorem Handle.destroy_spec (isA : Nat → Nat → Bool) (H : Heap) (t : Handle)
    (tinv : t.inv) (twf : t.wfH isA H) :
    (t.ptr_ = none → t.destroy H = H) ∧
    (∀ b, t.ptr_ = some b → ∃ ob, H.lookup b = some ob ∧ t.destroy H = H.free b) := by
  constructor
  · intro hp
    have hcb := tinv.1.mp hp
    simp [Handle.destroy, hcb]
  · intro b hb
    rcases Handle.cb_some_of_ptr_some t tinv b hb with ⟨cb, hcb, hptr⟩
    have hwf := twf cb hcb
    rcases CB.lookup_of_wf isA H cb hwf b hptr with ⟨ob, hob⟩
    have howned := CB.ownedAddr_of_wf isA H cb hwf b hptr
    refine ⟨ob, hob, ?_⟩
    simp only [Handle.destroy, hcb]
    rw [CB.destroyCB_eq, howned]

theorem Handle.copyCtor_spec (isA : Nat → Nat → Bool) (H : Heap) (h : Handle)
    (hinv : h.inv) (hwf : h.wfH isA H) (a : Nat) (hp : h.ptr_ = some a) :
    ∃ o c, H.lookup a = some o ∧
      h.copyCtor isA H = (⟨some H.next, some c⟩, (H.alloc o).1) ∧
      c.ptrCB = some H.next := by
  rcases Handle.cb_some_of_ptr_some h hinv a hp with ⟨cb, hcb, hptr⟩
  rcases CB.cloneCB_spec isA H cb (hwf cb hcb) a hptr with ⟨o, ho, hheap, hptr2⟩
  refine ⟨o, (cb.cloneCB isA H).1, ho, ?_, hptr2⟩
  simp only [Handle.copyCtor, hp, Option.isNone_some, Bool.false_eq_true, if_false, hcb]
  rw [hptr2, hheap]

end PolyVal

namespace PolyVal

theorem Handle.copyAssign_some_spec (isA : Nat → Nat → Bool) (H : Heap) (t h : Handle)
    (hinv : h.inv) (hwf : h.wfH isA H) (a : Nat) (hp : h.ptr_ = some a) :
    ∃ o c, H.lookup a = some o ∧
      Handle.copyAssign isA false t h H = (⟨some H.next, some c⟩, t.destroy (H.alloc o).1) ∧
      c.ptrCB = some H.next := by
  rcases Handle.cb_some_of_ptr_some h hinv a hp with ⟨cb, hcb, hptr⟩
  rcases CB.cloneCB_spec isA H cb (hwf cb hcb) a hptr with ⟨o, ho, hheap, hptr2⟩
  refine ⟨o, (cb.cloneCB isA H).1, ho, ?_, hptr2⟩
  simp only [Handle.copyAssign, hp, Option.isNone_some, Bool.false_eq_true, if_false, hcb]
  rw [hptr2, hheap]

theorem Handle.destroy_nonempty (isA : Nat → Nat → Bool) (H HX : Heap) (t : Handle)
    (tinv : t.inv) (twf : t.wfH isA H) (b : Nat) (htp : t.ptr_ = some b) :
    t.destroy HX = HX.free b := by
  rcases Handle.cb_some_of_ptr_some t tinv b htp with ⟨cbt, hcbt, hptrt⟩
  have howned := CB.ownedAddr_of_wf isA H cbt (twf cbt hcbt) b hptrt
  simp only [Handle.destroy, hcbt]
  rw [CB.destroyCB_eq, howned]

theorem Handle.live_of_ptr_some (isA : Nat → Nat → Bool) (H : Heap) (t : Handle)
    (tinv : t.inv) (twf : t.wfH isA H) (b : Nat) (htp : t.ptr_ = some b) :
    ∃ ob, H.lookup b = some ob := by
  rcases Handle.cb_some_of_ptr_some t tinv b htp with ⟨cbt, hcbt, hptrt⟩
  exact CB.lookup_of_wf isA H cbt (twf cbt hcbt) b hptrt

/-- C1: copy-constructing or copy-assigning from a non-empty well-formed
handle produces a handle at a fresh observer address (different from the
source's), whose owned object is an exact duplicate of the source's object —
same dynamic type and same state, obtained by re-running the duplication
bound in the source's innermost control block — while the source object stays
in place unchanged; exactly one new live object is allocated (copy-assignment
additionally destroys the target's old object, so the total is unchanged when
the target was non-empty).  Copying an empty handle yields an empty handle. -/
theorem C1_copy_duplicates (isA : Nat → Nat → Bool) (H : Heap) (h t : Handle)
    (hH : H.wf) (hinv : h.inv) (hwf : h.wfH isA H)
    (tinv : t.inv) (twf : t.wfH isA H) :
    (h.ptr_ = none →
      h.copyCtor isA H = (⟨none, none⟩, H) ∧
      (Handle.copyAssign isA false t h H).1 = ⟨none, none⟩) ∧
    (∀ a, h.ptr_ = some a →
      ∃ o, H.lookup a = some o ∧
        (h.copyCtor isA H).1.ptr_ = some H.next ∧
        (h.copyCtor isA H).1.ptr_ ≠ h.ptr_ ∧
        (h.copyCtor isA H).2.lookup H.next = some o ∧
        (h.copyCtor isA H).2.lookup a = some o ∧
        (h.copyCtor isA H).2.count = H.count + 1 ∧
        (Handle.copyAssign isA false t h H).1.ptr_ = some H.next ∧
        (Handle.copyAssign isA false t h H).1.ptr_ ≠ h.ptr_ ∧
        (Handle.copyAssign isA false t h H).2.lookup H.next = some o ∧
        (t.ptr_ = none → (Handle.copyAssign isA false t h H).2.count = H.count + 1) ∧
        (∀ b, t.ptr_ = some b → (Handle.copyAssign isA false t h H).2.count = H.count)) := by
  constructor
  · intro hp
    constructor
    · simp [Handle.copyCtor, hp]
    · simp [Handle.copyAssign, hp]
  · intro a hp
    rcases Handle.copyCtor_spec isA H h hinv hwf a hp with ⟨o, c, ho, hcc, hcptr⟩
    rcases Handle.copyAssign_some_spec isA H t h hinv hwf a hp with ⟨o2, c2, ho2, hca, hcptr2⟩
    have ho2o : o2 = o := Option.some.inj (ho2.symm.trans ho)
    rw [ho2o] at hca
    have haltn : a < H.next := Heap.lookup_lt_next H hH a o ho
    have hane : a ≠ H.next := Nat.ne_of_lt haltn
    have hfresh_ne : (some H.next : Option Nat) ≠ h.ptr_ := by
      rw [hp]
      intro hcon
      exact hane (Option.some.inj hcon).symm
    have hAwf : (H.alloc o).1.wf := Heap.wf_alloc H o hH
    refine ⟨o, ho, ?_, ?_, ?_, ?_, ?_, ?_, ?_, ?_, ?_, ?_⟩
    · rw [hcc]
    · rw [hcc]; exact hfresh_ne
    · rw [hcc]; exact Heap.lookup_alloc_self H o
    · rw [hcc, Heap.lookup_alloc_ne H o a hane]; exact ho
    · rw [hcc]; exact Heap.count_alloc H o
    · rw [hca]
    · rw [hca]; exact hfresh_ne
    · rw [hca]
      cases htp : t.ptr_ with
      | none =>
        have hcbt := tinv.1.mp htp
        simp only [Handle.destroy, hcbt]
        exact Heap.lookup_alloc_self H o
      | some b =>
        rcases Handle.live_of_ptr_some isA H t tinv twf b htp with ⟨ob, hob⟩
        have hbn : b < H.next := Heap.lookup_lt_next H hH b ob hob
        rw [Handle.destroy_nonempty isA H _ t tinv twf b htp,
          Heap.lookup_free_ne _ b H.next (Ne.symm (Nat.ne_of_lt hbn))]
        exact Heap.lookup_alloc_self H o
    · intro htp
      have hcbt := tinv.1.mp htp
      rw [hca]
      simp only [Handle.destroy, hcbt]
      exact Heap.count_alloc H o
    · intro b htp
      rcases Handle.live_of_ptr_some isA H t tinv twf b htp with ⟨ob, hob⟩
      have hbn : b < H.next := Heap.lookup_lt_next H hH b ob hob
      rw [hca, Handle.destroy_nonempty isA H _ t tinv twf b htp]
      have hlook2 : (H.alloc o).1.lookup b = some ob := by
        rw [Heap.lookup_alloc_ne H o b (Nat.ne_of_lt hbn)]
        exact hob
      have hcf := Heap.count_free (H.alloc o).1 hAwf b ob hlook2
      have hct := Heap.count_alloc H o
      show ((H.alloc o).1.free b).count = H.count
      omega

theorem C1_copy_duplicates_witness :
    ((⟨some 0, some (.impl 1 (some 0))⟩ : Handle).copyCtor isAx ⟨1, [(0, ⟨1, 7⟩)]⟩).1.ptr_ =
      some 1 ∧
    ((⟨some 0, some (.impl 1 (some 0))⟩ : Handle).copyCtor isAx
        ⟨1, [(0, ⟨1, 7⟩)]⟩).2.lookup 1 = some ⟨1, 7⟩ ∧
    ((⟨some 0, some (.impl 1 (some 0))⟩ : Handle).copyCtor isAx ⟨1, [(0, ⟨1, 7⟩)]⟩).2.count =
      2 := by
  have hm := C1_copy_duplicates isAx ⟨1, [(0, ⟨1, 7⟩)]⟩ ⟨some 0, some (.impl 1 (some 0))⟩
    ⟨none, none⟩ ⟨by decide, by decide⟩
    ⟨by simp, fun cb hcb => by cases hcb; rfl⟩
    (fun cb hcb => by
      cases hcb
      intro a ha
      cases ha
      exact ⟨⟨1, 7⟩, rfl, rfl⟩)
    Handle.inv_empty
    (fun cb hcb => by cases hcb)
  rcases hm.2 0 rfl with ⟨o, ho, h1, -, h3, -, h5, -, -, -, -, -⟩
  have hoval : o = ⟨1, 7⟩ :=
    Option.some.inj (ho.symm.trans (show Heap.lookup ⟨1, [(0, ⟨1, 7⟩)]⟩ 0 = some ⟨1, 7⟩ from rfl))
  rw [hoval] at h3
  exact ⟨h1, h3, h5⟩

/-- C3: `release()` on an empty handle returns null and leaves the handle
unchanged; on a non-empty handle it returns exactly the current observer
address, leaves the handle empty (null observer, boolean-false) and does not
destroy the released object: the heap is untouched (the modelled release
never maps the heap) and destroying the handle afterwards frees nothing —
ownership has transferred to the caller. -/
theorem C3_release_transfers (h : Handle) (H : Heap) (hinv : h.inv) :
    (h.ptr_ = none → h.releaseOp = (none, h)) ∧
    (∀ a, h.ptr_ = some a →
      h.releaseOp.1 = some a ∧
      h.releaseOp.2.ptr_ = none ∧
      h.releaseOp.2.boolOp = false ∧
      h.releaseOp.2.destroy H = H) := by
  constructor
  · intro hp
    simp [Handle.releaseOp, hp]
  · intro a hp
    rcases Handle.cb_some_of_ptr_some h hinv a hp with ⟨cb, hcb, hptr⟩
    have hrel : h.releaseOp = (cb.releaseCB.1, ⟨none, some cb.releaseCB.2⟩) := by
      simp [Handle.releaseOp, hp, hcb]
    refine ⟨?_, ?_, ?_, ?_⟩
    · rw [hrel]
      show cb.releaseCB.1 = some a
      rw [CB.releaseCB_fst]
      exact hptr
    · rw [hrel]
    · rw [hrel]
      rfl
    · rw [hrel]
      show cb.releaseCB.2.destroyCB H = H
      exact CB.releaseCB_destroy cb H

theorem C3_release_transfers_witness :
    (⟨some 0, some (.impl 1 (some 0))⟩ : Handle).releaseOp.1 = some 0 ∧
    (⟨some 0, some (.impl 1 (some 0))⟩ : Handle).releaseOp.2.ptr_ = none ∧
    (⟨some 0, some (.impl 1 (some 0))⟩ : Handle).releaseOp.2.destroy ⟨1, [(0, ⟨1, 7⟩)]⟩ =
      ⟨1, [(0, ⟨1, 7⟩)]⟩ := by
  have hm := C3_release_transfers ⟨some 0, some (.impl 1 (some 0))⟩ ⟨1, [(0, ⟨1, 7⟩)]⟩
    ⟨by simp, fun cb hcb => by cases hcb; rfl⟩
  rcases hm.2 0 rfl with ⟨h1, h2, -, h4⟩
  exact ⟨h1, h2, h4⟩

/-- C9: self-assignment, self-move-assignment (the `&p == this` branch taken)
and `reset` with a pointer whose address equals the current observer are
complete no-ops: the handle, the owned object and the whole heap (hence the
live-object count) are unchanged. -/
theorem C9_self_ops_noop (isA : Nat → Nat → Bool) (h : Handle) (H : Heap)
    (u : Option Nat) (uTag : Nat) (hu : u = h.ptr_) :
    Handle.copyAssign isA true h h H = (h, H) ∧
    Handle.moveAssign true h h H = (h, h, H) ∧
    h.reset u uTag H = (h, H) := by
  refine ⟨?_, ?_, ?_⟩
  · simp [Handle.copyAssign]
  · simp [Handle.moveAssign]
  · simp [Handle.reset, hu]

theorem C9_self_ops_noop_witness :
    Handle.copyAssign isAx true ⟨some 0, some (.impl 1 (some 0))⟩
      ⟨some 0, some (.impl 1 (some 0))⟩ ⟨1, [(0, ⟨1, 7⟩)]⟩ =
      (⟨some 0, some (.impl 1 (some 0))⟩, ⟨1, [(0, ⟨1, 7⟩)]⟩) ∧
    (⟨some 0, some (.impl 1 (some 0))⟩ : Handle).reset (some 0) 1 ⟨1, [(0, ⟨1, 7⟩)]⟩ =
      (⟨some 0, some (.impl 1 (some 0))⟩, ⟨1, [(0, ⟨1, 7⟩)]⟩) := by
  have hm := C9_self_ops_noop isAx ⟨some 0, some (.impl 1 (some 0))⟩ ⟨1, [(0, ⟨1, 7⟩)]⟩
    (some 0) 1 rfl
  exact ⟨hm.1, hm.2.2⟩

/-- C10 counterexample: cloned_ptr's `operator->` contains no assertion — it
simply returns `get()` (src/cloned_ptr.h line 273) — so on an empty handle it
returns the null observer as an ordinary usable value; the library's own
tests REQUIRE `dptr.operator->() == nullptr` on empty handles.  This
contradicts the claim that `operator->` on every empty handle hits an error
branch rather than returning a usable null result. -/
theorem C10_arrow_no_assert_cex : (⟨none, none⟩ : Handle).opArrow = none := rfl

/-- C10 amended: dereference (`operator*`) of an empty cloned_ptr fails its
`assert(ptr_)`, and both `operator->` and `operator*` of an empty
polymorphic_value fail their assertions; cloned_ptr's `operator->`, however,
performs no check and returns the null observer (behavior its tests rely
on). -/
theorem C10_empty_access (h : Handle) (pv : PV.PVHandle)
    (hh : h.ptr_ = none) (hp1 : pv.ptr_ = none) (hp2 : pv.cb_ = none) :
    h.starAssert = false ∧ h.opArrow = none ∧
    pv.arrowAssertConst = false ∧ pv.arrowAssertMut = false ∧ pv.starAssert = false := by
  simp [Handle.starAssert, Handle.opArrow, Handle.get, PV.PVHandle.arrowAssertConst,
    PV.PVHandle.arrowAssertMut, PV.PVHandle.starAssert, hh, hp1, hp2]

theorem C10_empty_access_witness :
    (⟨none, none⟩ : Handle).starAssert = false ∧
    (⟨none, none⟩ : PV.PVHandle).starAssert = false := by
  have hm := C10_empty_access ⟨none, none⟩ ⟨none, none⟩ rfl rfl rfl
  exact ⟨hm.1, hm.2.2.2.2⟩

theorem beq_decide_nat (a b : Nat) : (a == b) = decide (a = b) := by
  by_cases h : a = b <;> simp [h]

theorem bne_decide_nat (a b : Nat) : (a != b) = !decide (a = b) := by
  by_cases h : a = b <;> simp [h]

/-- C5: each of the six comparison operators between two handles, and each
comparison between a handle and the null sentinel in both operand orders,
returns exactly the result of the corresponding comparison of the raw
observer address values (`ptrVal`; the null pointer has address 0). -/
theorem C5_comparisons_match_addresses (t u : Handle) :
    (opEq t u = decide (ptrVal t.get = ptrVal u.get)) ∧
    (opNe t u = decide (ptrVal t.get ≠ ptrVal u.get)) ∧
    (opLt t u = decide (ptrVal t.get < ptrVal u.get)) ∧
    (opGt t u = decide (ptrVal t.get > ptrVal u.get)) ∧
    (opLe t u = decide (ptrVal t.get ≤ ptrVal u.get)) ∧
    (opGe t u = decide (ptrVal t.get ≥ ptrVal u.get)) ∧
    (opEqNil t = decide (ptrVal t.get = 0)) ∧
    (opNilEq t = decide (0 = ptrVal t.get)) ∧
    (opNeNil t = decide (ptrVal t.get ≠ 0)) ∧
    (opNilNe t = decide (0 ≠ ptrVal t.get)) ∧
    (opLtNil t = decide (ptrVal t.get < 0)) ∧
    (opNilLt t = decide (0 < ptrVal t.get)) ∧
    (opGtNil t = decide (ptrVal t.get > 0)) ∧
    (opNilGt t = decide (0 > ptrVal t.get)) ∧
    (opLeNil t = decide (ptrVal t.get ≤ 0)) ∧
    (opNilLe t = decide (0 ≤ ptrVal t.get)) ∧
    (opGeNil t = decide (ptrVal t.get ≥ 0)) ∧
    (opNilGe t = decide (0 ≥ ptrVal t.get)) := by
  cases ht : t.get <;> cases hu : u.get <;>
    simp only [opEq, opNe, opLt, opGt, opLe, opGe, opEqNil, opNilEq, opNeNil, opNilNe,
      opLtNil, opNilLt, opGtNil, opNilGt, opLeNil, opNilLe, opGeNil, opNilGe,
      ptrEqB, ptrNeB, ptrLtB, ptrGtB, ptrLeB, ptrGeB, ptrVal, ht, hu,
      beq_decide_nat, bne_decide_nat] <;>
    refine ⟨?_, ?_, ?_, ?_, ?_, ?_, ?_, ?_, ?_, ?_, ?_, ?_, ?_, ?_, ?_, ?_, ?_, ?_⟩ <;>
    first
      | rfl
      | simp

/-- C2 counterexample: `release()` clears the observer but leaves the spent
control block in place (`cb_` still holds the `control_block_impl`, now with
a null owned pointer).  After `release()` on a non-empty handle the observer
is null while the control-block pointer is not, so the claimed iff fails
after a complete public operation. -/
theorem C2_release_breaks_inv_cex :
    ¬ (Handle.fromPtr (some 0) 1).releaseOp.2.inv := by
  intro hinv
  have h1 := hinv.1.mp rfl
  exact absurd h1 (by decide)

/-- C2 amended: for well-formed handles the invariant (null observer iff null
control-block pointer; a present control block locates exactly the observer)
is preserved by raw-pointer construction, copy construction, move
construction, copy and move assignment (self and non-self), reset and swap;
`release()`, however, only clears the observer: on a non-empty handle the
spent control block remains in place, so the iff does not survive release. -/
theorem C2_invariant_preserved (isA : Nat → Nat → Bool) (H : Heap) (h t : Handle)
    (u : Option Nat) (uTag : Nat)
    (hinv : h.inv) (hwf : h.wfH isA H) (tinv : t.inv) :
    (Handle.fromPtr u uTag).inv ∧
    (h.copyCtor isA H).1.inv ∧
    (h.moveCtor H).1.inv ∧
    (h.moveCtor H).2.1.inv ∧
    (Handle.copyAssign isA true h h H).1.inv ∧
    (Handle.copyAssign isA false t h H).1.inv ∧
    (Handle.moveAssign true h h H).1.inv ∧
    (Handle.moveAssign false t h H).1.inv ∧
    (Handle.moveAssign false t h H).2.1.inv ∧
    (h.reset u uTag H).1.inv ∧
    (h.swapH t).1.inv ∧
    (h.swapH t).2.inv ∧
    h.releaseOp.2.ptr_ = none ∧
    (∀ a, h.ptr_ = some a → h.releaseOp.2.cb_ ≠ none) := by
  have hfrom : ∀ (v : Option Nat) (w : Nat), (Handle.fromPtr v w).inv := by
    intro v w
    cases v with
    | none => exact Handle.inv_empty
    | some a => exact Handle.inv_mk a (.impl w (some a)) rfl
  have hcopy : (h.copyCtor isA H).1.inv := by
    cases hp : h.ptr_ with
    | none =>
      have : h.copyCtor isA H = (⟨none, none⟩, H) := by simp [Handle.copyCtor, hp]
      rw [this]
      exact Handle.inv_empty
    | some a =>
      rcases Handle.copyCtor_spec isA H h hinv hwf a hp with ⟨o, c, ho, hcc, hcp⟩
      rw [hcc]
      exact Handle.inv_mk H.next c hcp
  have hassign : (Handle.copyAssign isA false t h H).1.inv := by
    cases hp : h.ptr_ with
    | none =>
      have : (Handle.copyAssign isA false t h H).1 = ⟨none, none⟩ := by
        simp [Handle.copyAssign, hp]
      rw [this]
      exact Handle.inv_empty
    | some a =>
      rcases Handle.copyAssign_some_spec isA H t h hinv hwf a hp with ⟨o, c, ho, hca, hcp⟩
      rw [hca]
      exact Handle.inv_mk H.next c hcp
  have hrelease : h.releaseOp.2.ptr_ = none ∧
      (∀ a, h.ptr_ = some a → h.releaseOp.2.cb_ ≠ none) := by
    cases hp : h.ptr_ with
    | none =>
      constructor
      · simp [Handle.releaseOp, hp]
      · intro a ha
        cases ha
    | some a =>
      rcases Handle.cb_some_of_ptr_some h hinv a hp with ⟨cb, hcb, hptr⟩
      have hrel : h.releaseOp = (cb.releaseCB.1, ⟨none, some cb.releaseCB.2⟩) := by
        simp [Handle.releaseOp, hp, hcb]
      constructor
      · rw [hrel]
      · intro a' ha'
        rw [hrel]
        simp
  refine ⟨hfrom u uTag, hcopy, hinv, Handle.inv_empty, hinv, hassign, hinv, hinv,
    Handle.inv_empty, ?_, tinv, hinv, hrelease.1, hrelease.2⟩
  by_cases hc : u = h.ptr_
  · simp only [Handle.reset, if_pos hc]
    exact hinv
  · simp only [Handle.reset, if_neg hc]
    exact hfrom u uTag

theorem C2_invariant_preserved_witness :
    (Handle.fromPtr (some 0) 1).inv ∧
    (⟨some 0, some (.impl 1 (some 0))⟩ : Handle).releaseOp.2.ptr_ = none := by
  have hm := C2_invariant_preserved isAx ⟨1, [(0, ⟨1, 7⟩)]⟩
    ⟨some 0, some (.impl 1 (some 0))⟩ ⟨none, none⟩ (some 0) 1
    ⟨by simp, fun cb hcb => by cases hcb; rfl⟩
    (fun cb hcb => by
      cases hcb
      intro a ha
      cases ha
      exact ⟨⟨1, 7⟩, rfl, rfl⟩)
    Handle.inv_empty
  exact ⟨hm.1, hm.2.2.2.2.2.2.2.2.2.2.2.2.1⟩

/-- C4 counterexample: move-assignment between two distinct non-empty handles
first destroys the target's previously owned object, so the live-object
count drops from 2 to 1 — it is not left unchanged as claimed. -/
theorem C4_move_assign_count_cex :
    (Handle.moveAssign false ⟨some 0, some (.impl 0 (some 0))⟩
      ⟨some 1, some (.impl 0 (some 1))⟩
      ⟨2, [(1, ⟨0, 87⟩), (0, ⟨0, 7⟩)]⟩).2.2.count = 1 ∧
    (⟨2, [(1, ⟨0, 87⟩), (0, ⟨0, 7⟩)]⟩ : Heap).count = 2 := ⟨rfl, rfl⟩

/-- C4 amended: move construction steals the source's observer and control
block, leaves the source empty (null observer, boolean-false) and touches
neither the heap nor the duplication machinery; non-self move assignment
gives the target the exact pre-move observer of the source and empties the
source, again with no clone, but it first destroys the target's previously
owned object, so the live count drops by one exactly when the target was
non-empty (and the heap is untouched when the target was empty). -/
theorem C4_move_semantics (isA : Nat → Nat → Bool) (H : Heap) (t p : Handle)
    (hH : H.wf) (tinv : t.inv) (twf : t.wfH isA H) :
    (p.moveCtor H).1 = ⟨p.ptr_, p.cb_⟩ ∧
    (p.moveCtor H).2.1 = ⟨none, none⟩ ∧
    (p.moveCtor H).2.2 = H ∧
    (Handle.moveAssign false t p H).1.ptr_ = p.ptr_ ∧
    (Handle.moveAssign false t p H).2.1 = ⟨none, none⟩ ∧
    (Handle.moveAssign false t p H).2.1.boolOp = false ∧
    (t.ptr_ = none → (Handle.moveAssign false t p H).2.2 = H) ∧
    (∀ b, t.ptr_ = some b →
      (Handle.moveAssign false t p H).2.2 = H.free b ∧
      (Handle.moveAssign false t p H).2.2.count + 1 = H.count) := by
  refine ⟨rfl, rfl, rfl, rfl, rfl, rfl, ?_, ?_⟩
  · intro htp
    have hcbt := tinv.1.mp htp
    show t.destroy H = H
    simp [Handle.destroy, hcbt]
  · intro b htp
    have hd : t.destroy H = H.free b := Handle.destroy_nonempty isA H H t tinv twf b htp
    constructor
    · show t.destroy H = H.free b
      exact hd
    · show (t.destroy H).count + 1 = H.count
      rw [hd]
      rcases Handle.live_of_ptr_some isA H t tinv twf b htp with ⟨ob, hob⟩
      exact Heap.count_free H hH b ob hob

theorem C4_move_semantics_witness :
    (Handle.moveAssign false ⟨some 0, some (.impl 0 (some 0))⟩
      ⟨some 1, some (.impl 0 (some 1))⟩
      ⟨2, [(1, ⟨0, 87⟩), (0, ⟨0, 7⟩)]⟩).1.ptr_ = some 1 ∧
    (Handle.moveAssign false ⟨some 0, some (.impl 0 (some 0))⟩
      ⟨some 1, some (.impl 0 (some 1))⟩
      ⟨2, [(1, ⟨0, 87⟩), (0, ⟨0, 7⟩)]⟩).2.2.count + 1 = 2 := by
  have hm := C4_move_semantics isAx ⟨2, [(1, ⟨0, 87⟩), (0, ⟨0, 7⟩)]⟩
    ⟨some 0, some (.impl 0 (some 0))⟩ ⟨some 1, some (.impl 0 (some 1))⟩
    ⟨by decide, by decide⟩
    ⟨by simp, fun cb hcb => by cases hcb; rfl⟩
    (fun cb hcb => by
      cases hcb
      intro a ha
      cases ha
      exact ⟨⟨0, 7⟩, rfl, rfl⟩)
  exact ⟨hm.2.2.2.1, (hm.2.2.2.2.2.2.2 0 rfl).2⟩

/-- C6 counterexample: cloned_ptr's raw-pointer constructor performs no
dynamic-type check at all: binding it to a pointer whose static tag is 3
while the pointee's dynamic type is 5 completes normally and yields a
non-empty handle (the constructor has no error path). -/
theorem C6_ctor_unchecked_cex :
    ((⟨1, [(0, ⟨5, 0⟩)]⟩ : Heap).lookup 0).map Obj.dynType = some 5 ∧
    Handle.fromPtr (some 0) 3 = ⟨some 0, some (.impl 3 (some 0))⟩ ∧
    (Handle.fromPtr (some 0) 3).boolOp = true := ⟨rfl, rfl, rfl⟩

/-- C6 amended: polymorphic_value's raw-pointer constructor with the default
copier and default deleter (the only case where type identity is checked)
does reject a static/dynamic type mismatch: it throws
`bad_polymorphic_value_construction` before taking ownership, and no handle
of any kind is produced; cloned_ptr's raw-pointer constructor (and the
custom-copier constructors) perform no such check. -/
theorem C6_pv_ctor_type_check (H : Heap) (a uTag : Nat) (o : Obj)
    (hlook : H.lookup a = some o) (hmis : o.dynType ≠ uTag) :
    PV.construct H (some a) uTag true true = .error .badConstruction ∧
    ∀ hnd, PV.construct H (some a) uTag true true ≠ .ok hnd := by
  have hcond : ((H.lookup a).map Obj.dynType == some uTag) = false := by
    rw [hlook]
    simp [hmis]
  constructor
  · simp [PV.construct, hcond]
  · intro hnd
    simp [PV.construct, hcond]

theorem C6_pv_ctor_type_check_witness :
    PV.construct ⟨1, [(0, ⟨5, 0⟩)]⟩ (some 0) 3 true true = .error .badConstruction :=
  (C6_pv_ctor_type_check ⟨1, [(0, ⟨5, 0⟩)]⟩ 0 3 ⟨5, 0⟩ rfl (by decide)).1

theorem dynCastA_some_elim (isA : Nat → Nat → Bool) (H : Heap) (tg : Nat)
    (x : Option Nat) (y : Nat) (h : dynCastA isA H tg x = some y) :
    ∃ o, x = some y ∧ H.lookup y = some o ∧ isA o.dynType tg = true := by
  cases x with
  | none => cases h
  | some a =>
    simp only [dynCastA] at h
    cases hl : H.lookup a with
    | none =>
      simp only [hl] at h
      cases h
    | some o =>
      simp only [hl] at h
      by_cases hv : isA o.dynType tg
      · rw [if_pos hv] at h
        have hay : a = y := Option.some.inj h
        subst hay
        exact ⟨o, rfl, hl, hv⟩
      · rw [if_neg hv] at h
        cases h

/-- C7: a checked downcast (`std::dynamic_pointer_cast`) applied to a handle
whose object's dynamic type is incompatible with the target — or to an empty
handle — returns the empty handle with the heap untouched (zero duplications,
live-object count unchanged); the modelled cast is a total function, so no
exception path exists; and no dynamic-casting adapter with a null cached
pointer is ever produced: whenever the cast yields an adapter, the cache
holds the address of the fresh duplicate, which is also the new observer. -/
theorem C7_checked_downcast_fail (isA : Nat → Nat → Bool) (tTag : Nat) (p : Handle)
    (H : Heap) (hinv : p.inv) (hwf : p.wfH isA H) :
    (∀ a o, p.ptr_ = some a → H.lookup a = some o → isA o.dynType tTag = false →
      dynamicPointerCast isA tTag p H = (⟨none, none⟩, H)) ∧
    (p.ptr_ = none → dynamicPointerCast isA tTag p H = (⟨none, none⟩, H)) ∧
    (∀ cb, (dynamicPointerCast isA tTag p H).1.cb_ = some cb →
      ∃ c, cb = .dynamicCasting tTag c (some H.next) ∧
        (dynamicPointerCast isA tTag p H).1.ptr_ = some H.next) := by
  refine ⟨?_, ?_, ?_⟩
  · intro a o hp hl hf
    have hdc : dynCastA isA H tTag p.get = none := by
      simp [dynCastA, Handle.get, hp, hl, hf]
    simp [dynamicPointerCast, hdc]
  · intro hp
    have hdc : dynCastA isA H tTag p.get = none := by
      simp [dynCastA, Handle.get, hp]
    simp [dynamicPointerCast, hdc]
  · intro cb hcb
    cases hdc : dynCastA isA H tTag p.get with
    | none =>
      have hres : dynamicPointerCast isA tTag p H = (⟨none, none⟩, H) := by
        simp [dynamicPointerCast, hdc]
      rw [hres] at hcb
      cases hcb
    | some y =>
      rcases dynCastA_some_elim isA H tTag p.get y hdc with ⟨o, hx, hl, hisa⟩
      have hp : p.ptr_ = some y := hx
      rcases Handle.copyCtor_spec isA H p hinv hwf y hp with ⟨o2, c, ho2, hcc, hcp⟩
      have ho2o : o2 = o := Option.some.inj (ho2.symm.trans hl)
      rw [ho2o] at hcc
      have hdca : dynCastA isA (H.alloc o).1 tTag (some H.next) = some H.next := by
        simp [dynCastA, Heap.lookup_alloc_self, hisa]
      have hres : dynamicPointerCast isA tTag p H =
          (⟨some H.next, some (.dynamicCasting tTag c (some H.next))⟩, (H.alloc o).1) := by
        simp only [dynamicPointerCast, hdc, hcc]
        rw [hcp, hdca]
      rw [hres] at hcb
      cases hcb
      exact ⟨c, rfl, by rw [hres]⟩

theorem C7_checked_downcast_fail_witness :
    dynamicPointerCast isAx 5 ⟨some 0, some (.impl 1 (some 0))⟩ ⟨1, [(0, ⟨1, 7⟩)]⟩ =
      (⟨none, none⟩, ⟨1, [(0, ⟨1, 7⟩)]⟩) := by
  have hm := C7_checked_downcast_fail isAx 5 ⟨some 0, some (.impl 1 (some 0))⟩
    ⟨1, [(0, ⟨1, 7⟩)]⟩
    ⟨by simp, fun cb hcb => by cases hcb; rfl⟩
    (fun cb hcb => by
      cases hcb
      intro a ha
      cases ha
      exact ⟨⟨1, 7⟩, rfl, rfl⟩)
  exact hm.1 0 ⟨1, 7⟩ rfl rfl (by decide)

/-- C8: the cloned_ptr cloning path leaks on a control-block allocation
failure, while polymorphic_value rolls back.  `control_block_impl::clone`
evaluates `std::make_unique<control_block_impl>(new U(*p_))`: with budget 1
the duplication of the object succeeds but the allocation of the new control
block fails, and the error propagates with the duplicate still live — the
heap grows from one object to two, i.e. the freshly duplicated object is
leaked instead of being deallocated before the error propagates.
`detail::allocate_object` of polymorphic_value.h, by contrast, deallocates
its storage when construction fails, leaving the live count at the
baseline. -/
theorem C8_clone_leaks_duplicate_on_failure :
    Handle.copyCtorF isAx ⟨some 0, some (.impl 1 (some 0))⟩ ⟨1, [(0, ⟨1, 7⟩)]⟩ 1 =
      .error ⟨2, [(1, ⟨1, 7⟩), (0, ⟨1, 7⟩)]⟩ ∧
    (⟨2, [(1, ⟨1, 7⟩), (0, ⟨1, 7⟩)]⟩ : Heap).count =
      (⟨1, [(0, ⟨1, 7⟩)]⟩ : Heap).count + 1 ∧
    PV.allocateObject ⟨1, [(0, ⟨1, 7⟩)]⟩ ⟨1, 7⟩ 1 true = .error ⟨2, [(0, ⟨1, 7⟩)]⟩ ∧
    (⟨2, [(0, ⟨1, 7⟩)]⟩ : Heap).count = (⟨1, [(0, ⟨1, 7⟩)]⟩ : Heap).count :=
  ⟨rfl, rfl, rfl, rfl⟩

end PolyVal
